import Mathlib

/-!
# Verification of the widget producer/consumer pipeline (`main.go`)

This file gives a shallow embedding of the Go program in `main.go`:

* `widget`, `mkWidget`        — the widget value object and its construction site
                                (body of `getWidget`, lines 80–89);
* `producerGroup`, `getWidget` — the producer-side fetch step (lines 62–92);
* `parseArgs`                  — command-line parsing (lines 156–193);
* a small-step interpreter (`RunState`, `stepAgent`, `run`) for the whole
  pipeline of `main` (lines 218–250): the ID issuer goroutine `generateIDs`
  (lines 202–216), the producer goroutines `produce` (lines 47–59), the
  consumer goroutines `consume` (lines 123–133) and the shutdown coordinator
  (lines 247–249).  Channels are modelled as explicit FIFO buffers; an
  arbitrary interleaving of the goroutines is supplied as a `List Agent`
  schedule and every theorem quantifies over all schedules.

Go `int` values are modelled as `Int`.  `time.Time` is modelled as an abstract
`Nat` tick.  `strconv.Itoa` is `toString : Int → String`, and `strconv.Atoi`
is embedded as `atoi` below (base-10, optional single leading sign, at least
one digit, nothing else; the int64 overflow check of `strconv` is irrelevant
at the argument sizes considered here).
-/

set_option autoImplicit false

/-- The widget value object (`main.go` lines 13–18).  `time.Time` is an
abstract tick. -/
structure widget where
  id : String
  source : String
  time : Nat
  broken : Bool
deriving DecidableEq, Repr

/-- Construction of the widget in `getWidget` (`main.go` lines 80–89):
`id` is `strconv.Itoa(currentID)`, `source` is `"Producer_" + itoa(n)`,
`broken` is set iff `currentID == badWidgetNum`. -/
def mkWidget (currentID producerNumber : Int) (now : Nat) (badWidgetNum : Int) : widget :=
  { id := toString currentID
    source := "Producer_" ++ toString producerNumber
    time := now
    broken := currentID == badWidgetNum }

/-- The shared producer-group state (`main.go` lines 28–36).  The channels and
wait group are modelled separately (see the interpreter below); this record
keeps the fields `getWidget` reads or writes.  `numMutexLocks` is ghost
instrumentation counting the calls `g.numMutex.Lock()` performed on the
mutex that is shared by all producers of the group; it changes no observable
behaviour. -/
structure producerGroup where
  numberProducers : Int
  numOfWidgets : Int
  badWidgetNum : Int
  numMutexLocks : Nat := 0
deriving DecidableEq, Repr

/-- Outcome of the blocking receive `currentID, ok := <-g.IDChan`
(`main.go` line 73): either a value with `ok = true`, or the closed
indication `ok = false`. -/
inductive IdRead where
  | value (c : Int)
  | closed
deriving DecidableEq, Repr

/-- `getWidget` (`main.go` lines 62–92), with the channel receive passed in as
`idRead`.  Returns the Go pair `(widget, error)` — the error is `some msg` —
together with the updated group state.  Line by line: lock `numMutex`
(counted in the ghost field), return an error on `numOfWidgets == 0`,
otherwise decrement `numOfWidgets`, unlock, then receive from `IDChan`;
on a closed channel return `widget{id: "0"}` with an error, otherwise build
the widget. -/
def getWidget (g : producerGroup) (producerNumber : Int) (now : Nat)
    (idRead : IdRead) : (widget × Option String) × producerGroup :=
  let g1 := { g with numMutexLocks := g.numMutexLocks + 1 }
  if g1.numOfWidgets = 0 then
    ((⟨"", "", 0, false⟩, some "no more widgets to produce"), g1)
  else
    let g2 := { g1 with numOfWidgets := g1.numOfWidgets - 1 }
    match idRead with
    | .closed => ((⟨"0", "", 0, false⟩, some "ID channel has been closed"), g2)
    | .value currentID =>
        ((mkWidget currentID producerNumber now g2.badWidgetNum, none), g2)

/-- Value of a decimal digit character, if it is one. -/
def digitVal (c : Char) : Option Nat :=
  if '0' ≤ c ∧ c ≤ '9' then some (c.toNat - '0'.toNat) else none

def digitsToNatAux : List Char → Nat → Option Nat
  | [], acc => some acc
  | c :: rest, acc =>
    match digitVal c with
    | none => none
    | some d => digitsToNatAux rest (acc * 10 + d)

/-- Base-10 reading of a nonempty all-digit character list. -/
def digitsToNat (cs : List Char) : Option Nat :=
  match cs with
  | [] => none
  | _ => digitsToNatAux cs 0

/-- `strconv.Atoi`: an optional single `+` or `-` sign followed by one or more
decimal digits; anything else is an error (`none`).  `strconv.Atoi` also
errors on numerals outside the `int64` range, a check this embedding drops;
every numeral appearing in a theorem below is far inside that range, where
the two functions agree. -/
def atoi (s : String) : Option Int :=
  match s.data with
  | '+' :: rest => (digitsToNat rest).map (fun n => (n : Int))
  | '-' :: rest => (digitsToNat rest).map (fun n => -(n : Int))
  | cs => (digitsToNat cs).map (fun n => (n : Int))

/-- The loop of `parseArgs` (`main.go` lines 166–190), carrying the four
accumulators.  The Go loop reads `arguments[0]` and `arguments[1]`; the
one-element case is unreachable because `parseArgs` first checks that the
argument list has even length (a read out of range would panic in Go, which
we model as an error). -/
def parseArgsLoop (arguments : List String)
    (numProducers numConsumers numWidgets kthBadWidget : Int) :
    Except String (Int × Int × Int × Int) :=
  match arguments with
  | [] => .ok (numWidgets, numConsumers, numProducers, kthBadWidget)
  | [_] => .error "index out of range"
  | option :: quantityStr :: rest =>
    match atoi quantityStr with
    | none => .error "can't convert quantity to integer"
    | some quantity =>
      match option with
      | "-n" => parseArgsLoop rest numProducers numConsumers quantity kthBadWidget
      | "-c" => parseArgsLoop rest numProducers quantity numWidgets kthBadWidget
      | "-p" => parseArgsLoop rest quantity numConsumers numWidgets kthBadWidget
      | "-k" => parseArgsLoop rest numProducers numConsumers numWidgets quantity
      | _ => .error "invalid option"

/-- `parseArgs` (`main.go` lines 156–193): reject an odd number of arguments,
then fold the option/quantity pairs over the defaults
`numProducers, numConsumers, numWidgets, kthBadWidget = 1, 1, 10, -1`.
The result tuple is `(numWidg, numCons, numProd, kthBadWidg)` as in the Go
return statement. -/
def parseArgs (arguments : List String) : Except String (Int × Int × Int × Int) :=
  if arguments.length % 2 ≠ 0 then .error "invalid number of options"
  else parseArgsLoop arguments 1 1 10 (-1)

/-! ## The pipeline interpreter

`main` (lines 218–250) wires up: `widgetChan` and `IDChan`, both buffered with
capacity `max(100000, numWidgets)`, the unbuffered `sigChan`, one
`generateIDs` goroutine, `numProducers` producer goroutines and
`numConsumers` consumer goroutines, and then waits for the producers, closes
`widgetChan` and waits for the consumers.

Because at most `numWidgets` values are ever sent on `IDChan`, and at most
that many widgets on `widgetChan`, neither buffered channel can ever be full
(`max(100000, numWidgets) ≥ numWidgets`), so sends on them never block and
the buffers are modelled as unbounded FIFO lists.  `sigChan` is unbuffered:
a send blocks its sender until the issuer receives it, which we model as a
`sendingSig` consumer state resolved by an issuer step.

Receives on a closed buffered Go channel drain the remaining buffered values
(with `ok = true`) before reporting `ok = false`; the producer `reading` step
below reproduces this.

Several fields of `RunState` are ghost histories (`issued`, `delivered`,
`produced`, `consumed`, the exit/receive counters): they record events
without influencing any step. -/

/-- Control state of the `generateIDs` goroutine (lines 202–216):
`checking i` is the top of the loop iteration for `i` (about to run the
`select`), `sending i` is the point between the `default` branch being chosen
and `IDChan <- i`, `finalWait` is the blocking `<-sigChan` after the loop,
and `done` means the goroutine has closed `IDChan` and returned. -/
inductive IssuerPhase where
  | checking (i : Int)
  | sending (i : Int)
  | finalWait
  | done
deriving DecidableEq, Repr

/-- Control state of a `produce` goroutine (lines 47–59) across its
`getWidget` call: `running` is the top of the loop (about to lock `numMutex`
and check `numOfWidgets`), `reading` is the blocking receive on `IDChan`
after the decrement, `sendingW c w` holds the built widget `w` (with ghost
integer id `c`) about to be pushed to `widgetChan`, and `done` means the
goroutine has returned. -/
inductive ProducerPhase where
  | running
  | reading
  | sendingW (c : Int) (w : widget)
  | done
deriving DecidableEq, Repr

/-- Control state of a `consume` goroutine (lines 123–133): `running` is the
blocking receive of the `range` loop, `sendingSig` is the blocking
`g.sigChan <- 1` inside `getConsumeMessage` (line 140) after a broken widget
was received, and `done` means the `range` loop ended on the closed and
drained channel. -/
inductive ConsumerPhase where
  | running
  | sendingSig
  | done
deriving DecidableEq, Repr

/-- The four tunables of a run, as produced by `parseArgs` and consumed by
`main`. -/
structure RunConfig where
  numWidgets : Int
  numProducers : Int
  numConsumers : Int
  kthBadWidget : Int
deriving DecidableEq, Repr

/-- Global state of a run of `main`: the three channels, the shared counter
`numOfWidgets`, the control state of every goroutine, and ghost event
histories.  Pairs `(c, w)` on the widget channel carry the ghost integer `c`
from which `w.id` was rendered; the Go channel carries only `w`. -/
structure RunState where
  /-- shared `g.numOfWidgets`, decremented under `numMutex` -/
  numOfWidgets : Int
  /-- buffer of `IDChan` -/
  idBuf : List Int
  /-- whether `close(IDChan)` has happened -/
  idClosed : Bool
  /-- ghost: all values ever sent on `IDChan`, in order -/
  issued : List Int
  /-- ghost: all values ever received from `IDChan`, in order -/
  delivered : List Int
  /-- ghost: number of receives from `IDChan` that returned `ok = false` -/
  closedReads : Nat
  /-- ghost: number of producers that returned via the `numOfWidgets == 0` check -/
  zeroExits : Nat
  /-- buffer of `widgetChan` (with ghost integer ids) -/
  widgetBuf : List (Int × widget)
  /-- whether `close(widgetChan)` has happened -/
  widgetClosed : Bool
  /-- ghost: all widgets ever sent on `widgetChan`, in order -/
  produced : List (Int × widget)
  /-- ghost: all widgets ever received from `widgetChan`, in order -/
  consumed : List (Int × widget)
  issuer : IssuerPhase
  producers : List ProducerPhase
  consumers : List ConsumerPhase
  /-- ghost: number of receives the issuer performed on `sigChan` -/
  sigReceives : Nat
  /-- ghost: number of sends attempted on `sigChan` (line 140) -/
  sigSendsStarted : Nat
  /-- abstract clock supplying `time.Now()` ticks -/
  clock : Nat
deriving DecidableEq, Repr

/-- The goroutines of the pipeline; a schedule is a list of agents, each entry
letting that goroutine take one atomic step (blocked or finished goroutines
simply do nothing). -/
inductive Agent where
  | issuer
  | producer (i : Nat)
  | consumer (i : Nat)
  | coord
deriving DecidableEq, Repr

def ProducerPhase.isDone : ProducerPhase → Bool
  | .done => true
  | _ => false

def ProducerPhase.isReading : ProducerPhase → Bool
  | .reading => true
  | _ => false

def ConsumerPhase.isDone : ConsumerPhase → Bool
  | .done => true
  | _ => false

def ConsumerPhase.isSendingSig : ConsumerPhase → Bool
  | .sendingSig => true
  | _ => false

/-- Index of the first consumer blocked on `g.sigChan <- 1`, if any: the
sender whose rendezvous an issuer receive on `sigChan` completes. -/
def firstSig : List ConsumerPhase → Option Nat
  | [] => none
  | c :: rest =>
    match c with
    | .sendingSig => some 0
    | _ => (firstSig rest).map (· + 1)

/-- The widget (with its ghost integer id) held by a producer that is between
building it and pushing it to `widgetChan`, if any. -/
def inflightF : ProducerPhase → Option (Int × widget)
  | .sendingW c w => some (c, w)
  | _ => none

/-- The ghost integer ids held by producers that are between building a widget
and pushing it to `widgetChan`. -/
def inflight (l : List ProducerPhase) : List (Int × widget) :=
  l.filterMap inflightF

/-- One atomic step of the `generateIDs` goroutine (lines 202–216).  In
`checking i`: leave the loop once `i > numWidgets`; otherwise run the
`select` — if a sender is blocked on `sigChan` the receive case is ready and
`select` takes it (close `IDChan` and return), else the `default` branch
falls through to the send.  In `sending i`: perform `IDChan <- i` (the buffer
is never full) and continue the loop.  In `finalWait`: the blocking
`<-sigChan` completes only when a sender is blocked. -/
def stepIssuer (cfg : RunConfig) (s : RunState) : RunState :=
  match s.issuer with
  | .checking i =>
    if i > cfg.numWidgets then { s with issuer := .finalWait }
    else
      match firstSig s.consumers with
      | some j =>
        { s with issuer := .done, idClosed := true,
                 consumers := s.consumers.set j .running,
                 sigReceives := s.sigReceives + 1 }
      | none => { s with issuer := .sending i }
  | .sending i =>
    { s with idBuf := s.idBuf ++ [i], issued := s.issued ++ [i],
             issuer := .checking (i + 1) }
  | .finalWait =>
    match firstSig s.consumers with
    | some j =>
      { s with issuer := .done, idClosed := true,
               consumers := s.consumers.set j .running,
               sigReceives := s.sigReceives + 1 }
    | none => s
  | .done => s

/-- One atomic step of producer `i` (`produce`, lines 47–59, around
`getWidget`).  In `running`: the `numMutex` critical section — exit on
`numOfWidgets == 0`, else decrement and move to the channel receive.  In
`reading`: the blocking `currentID, ok := <-g.IDChan` — a buffered value is
delivered even after close; `ok = false` only once the channel is closed and
drained; otherwise the producer stays blocked.  On a delivered id the widget
is built exactly as in `getWidget` lines 80–89.  In `sendingW`: the push
`g.widgetChan <- w` (the buffer is never full). -/
def stepProducer (cfg : RunConfig) (s : RunState) (i : Nat) : RunState :=
  match s.producers[i]? with
  | none => s
  | some ph =>
    match ph with
    | .running =>
      if s.numOfWidgets = 0 then
        { s with producers := s.producers.set i .done,
                 zeroExits := s.zeroExits + 1 }
      else
        { s with numOfWidgets := s.numOfWidgets - 1,
                 producers := s.producers.set i .reading }
    | .reading =>
      match s.idBuf with
      | c :: rest =>
        let w := mkWidget c ((i : Int) + 1) s.clock cfg.kthBadWidget
        { s with idBuf := rest, delivered := s.delivered ++ [c],
                 producers := s.producers.set i (.sendingW c w),
                 clock := s.clock + 1 }
      | [] =>
        if s.idClosed then
          { s with producers := s.producers.set i .done,
                   closedReads := s.closedReads + 1 }
        else s
    | .sendingW c w =>
      { s with widgetBuf := s.widgetBuf ++ [(c, w)],
               produced := s.produced ++ [(c, w)],
               producers := s.producers.set i .running }
    | .done => s

/-- One atomic step of consumer `i` (`consume`, lines 123–133, and
`getConsumeMessage`, lines 136–144).  In `running`: the `range` receive —
pop a widget if one is buffered; if it is broken, block on the
`g.sigChan <- 1` send; on a closed and drained channel the loop ends.  A
consumer blocked in `sendingSig` is unblocked by an issuer receive. -/
def stepConsumer (s : RunState) (i : Nat) : RunState :=
  match s.consumers[i]? with
  | none => s
  | some ph =>
    match ph with
    | .running =>
      match s.widgetBuf with
      | (c, w) :: rest =>
        if w.broken then
          { s with widgetBuf := rest, consumed := s.consumed ++ [(c, w)],
                   consumers := s.consumers.set i .sendingSig,
                   sigSendsStarted := s.sigSendsStarted + 1 }
        else
          { s with widgetBuf := rest, consumed := s.consumed ++ [(c, w)] }
      | [] =>
        if s.widgetClosed then { s with consumers := s.consumers.set i .done }
        else s
    | .sendingSig => s
    | .done => s

/-- One step of the shutdown coordinator, the tail of `main` (lines 247–249):
once every producer has returned (`producerWG.Wait()`), close `widgetChan`. -/
def stepCoord (s : RunState) : RunState :=
  if s.producers.all ProducerPhase.isDone && !s.widgetClosed then
    { s with widgetClosed := true }
  else s

/-- Dispatch one atomic step of the scheduled agent. -/
def stepAgent (cfg : RunConfig) (s : RunState) (a : Agent) : RunState :=
  match a with
  | .issuer => stepIssuer cfg s
  | .producer i => stepProducer cfg s i
  | .consumer i => stepConsumer s i
  | .coord => stepCoord s

/-- Initial state of `main` (lines 226–245): empty channels, the shared
counter at `numWidgets`, the issuer at the top of its loop with `i = 1`, and
`numProducers` producers and `numConsumers` consumers spawned in their loop
heads.  A count of zero spawns no goroutine of that kind (the spawn loops
`for i := 1; i <= count` run no iteration), hence `Int.toNat`; note that
`Int.toNat` also sends a *negative* count to zero, whereas the Go program
panics on such a count in `producerWG.Add` / `consumerWG.Add`
(lines 236/239, `sync: negative WaitGroup counter`) after spawning the
issuer goroutine but before any producer or consumer exists — that crash
path is outside this model, so the interpreter is faithful only for
non-negative worker counts. -/
def initState (cfg : RunConfig) : RunState :=
  { numOfWidgets := cfg.numWidgets
    idBuf := [], idClosed := false, issued := [], delivered := []
    closedReads := 0, zeroExits := 0
    widgetBuf := [], widgetClosed := false, produced := [], consumed := []
    issuer := .checking 1
    producers := List.replicate cfg.numProducers.toNat .running
    consumers := List.replicate cfg.numConsumers.toNat .running
    sigReceives := 0, sigSendsStarted := 0, clock := 0 }

/-- Execute a whole schedule from the initial state. -/
def run (cfg : RunConfig) (sched : List Agent) : RunState :=
  sched.foldl (stepAgent cfg) (initState cfg)

/-- A run is complete when every producer and every consumer goroutine has
returned and `widgetChan` has been closed — the point at which `main`
(line 249) returns.  (The issuer goroutine is deliberately not part of this
condition: `main` never waits for it.) -/
def runComplete (s : RunState) : Bool :=
  s.producers.all ProducerPhase.isDone && s.consumers.all ConsumerPhase.isDone
    && s.widgetClosed

/-- `sigChan` is created as `make(chan int)` (line 230): an unbuffered
channel, on which a send completes only by rendezvous with a receive.  Out of
`attempted` send attempts, only as many can ever complete as the issuer
performs receives; the rest stay blocked forever. -/
def blockedStopSenders (attempted receives : Nat) : Nat :=
  attempted - min attempted receives

/-! ## Auxiliary list lemmas -/

/-- The identifier sequence `1, 2, …, m` as integers. -/
def seqFrom1 (m : Nat) : List Int := (List.range m).map fun (j : Nat) => (j : Int) + 1

theorem seqFrom1_succ (m : Nat) : seqFrom1 (m + 1) = seqFrom1 m ++ [(m : Int) + 1] := by
  simp [seqFrom1, List.range_succ]

theorem length_seqFrom1 (m : Nat) : (seqFrom1 m).length = m := by
  simp only [seqFrom1, List.length_map, List.length_range]

theorem mem_seqFrom1 {x : Int} {m : Nat} : x ∈ seqFrom1 m ↔ 1 ≤ x ∧ x ≤ (m : Int) := by
  induction m with
  | zero =>
    simp only [seqFrom1, List.range_zero, List.map_nil, List.not_mem_nil, false_iff]
    omega
  | succ m ih =>
    rw [seqFrom1_succ]
    simp only [List.mem_append, List.mem_singleton, ih]
    omega

theorem count_seqFrom1 (x : Int) (m : Nat) :
    (seqFrom1 m).count x = if 1 ≤ x ∧ x ≤ (m : Int) then 1 else 0 := by
  induction m with
  | zero =>
    rw [if_neg (by omega)]
    simp [seqFrom1]
  | succ m ih =>
    rw [seqFrom1_succ, List.count_append, ih]
    simp only [List.count_cons, List.count_nil, beq_iff_eq]
    split_ifs <;> omega

theorem countP_set_add {α : Type} (p : α → Bool) (l : List α) (i : Nat) (v : α)
    (h : i < l.length) :
    (l.set i v).countP p + (if p l[i] then 1 else 0)
      = l.countP p + (if p v then 1 else 0) := by
  have hle : (if p l[i] then 1 else 0) ≤ l.countP p := by
    split_ifs with hp
    · exact List.countP_pos_iff.mpr ⟨l[i], List.getElem_mem h, hp⟩
    · omega
  rw [List.countP_set p l i v h]
  omega

theorem perm_rotate3 {α : Type} (x m y : List α) :
    (x ++ m ++ y).Perm (y ++ m ++ x) := by
  have h1 : (x ++ m ++ y).Perm (y ++ (x ++ m)) := List.perm_append_comm
  have h2 : (y ++ (x ++ m)).Perm (y ++ (m ++ x)) :=
    List.Perm.append_left y List.perm_append_comm
  have h3 : (y ++ (m ++ x)).Perm (y ++ m ++ x) := by
    rw [List.append_assoc]
  exact (h1.trans h2).trans h3

theorem filterMap_set_perm {α β : Type} (f : α → Option β) :
    ∀ (l : List α) (i : Nat) (v : α) (h : i < l.length),
    ((l.set i v).filterMap f ++ (f l[i]).toList).Perm
      (l.filterMap f ++ (f v).toList)
  | a :: l, 0, v, _ => by
    cases hv : f v with
    | none =>
      cases ha : f a with
      | none => simp [List.filterMap_cons, hv, ha]
      | some b =>
        simp only [List.set_cons_zero, List.getElem_cons_zero, List.filterMap_cons, hv, ha,
          Option.toList_some, Option.toList_none, List.append_nil]
        exact List.perm_append_comm
    | some c =>
      cases ha : f a with
      | none =>
        simp only [List.set_cons_zero, List.getElem_cons_zero, List.filterMap_cons, hv, ha,
          Option.toList_some, Option.toList_none, List.append_nil]
        simpa using @List.perm_append_comm _ [c] (List.filterMap f l)
      | some b =>
        simp only [List.set_cons_zero, List.getElem_cons_zero, List.filterMap_cons, hv, ha,
          Option.toList_some, List.cons_append]
        simpa using perm_rotate3 [c] (List.filterMap f l) [b]
  | a :: l, i + 1, v, h => by
    have hlen : i < l.length := by simpa using h
    have ih := filterMap_set_perm f l i v hlen
    simp only [List.set_cons_succ, List.getElem_cons_succ, List.filterMap_cons]
    cases ha : f a with
    | none => exact ih
    | some b =>
      simpa only [List.cons_append] using List.Perm.cons b ih

/-! ## Phase-counting helpers -/

/-- Number of producers blocked in the `IDChan` receive. -/
def countReading (l : List ProducerPhase) : Nat := l.countP ProducerPhase.isReading

/-- Number of producers that have returned. -/
def countDoneP (l : List ProducerPhase) : Nat := l.countP ProducerPhase.isDone

theorem firstSig_spec : ∀ {l : List ConsumerPhase} {j : Nat}, firstSig l = some j →
    ∃ h : j < l.length, l[j] = ConsumerPhase.sendingSig
  | [], _, h => by simp [firstSig] at h
  | c :: rest, j, h => by
    cases c with
    | sendingSig =>
      simp only [firstSig] at h
      cases h
      exact ⟨by simp, rfl⟩
    | running =>
      simp only [firstSig, Option.map_eq_some'] at h
      obtain ⟨j', hj', rfl⟩ := h
      obtain ⟨hlt, hget⟩ := firstSig_spec hj'
      exact ⟨by simpa using Nat.succ_lt_succ hlt, by simpa using hget⟩
    | done =>
      simp only [firstSig, Option.map_eq_some'] at h
      obtain ⟨j', hj', rfl⟩ := h
      obtain ⟨hlt, hget⟩ := firstSig_spec hj'
      exact ⟨by simpa using Nat.succ_lt_succ hlt, by simpa using hget⟩

theorem mem_inflight_of_getElem {l : List ProducerPhase} {i : Nat} {c : Int} {w : widget}
    (h : i < l.length) (hg : l[i] = ProducerPhase.sendingW c w) :
    (c, w) ∈ inflight l :=
  List.mem_filterMap.mpr ⟨l[i], List.getElem_mem h, by rw [hg]; rfl⟩

theorem inflight_nil_of_done {l : List ProducerPhase} (h : ∀ p ∈ l, p = ProducerPhase.done) :
    inflight l = [] :=
  List.filterMap_eq_nil.mpr fun p hp => by rw [h p hp]; rfl

theorem countReading_eq_zero_of_done {l : List ProducerPhase}
    (h : ∀ p ∈ l, p = ProducerPhase.done) : countReading l = 0 :=
  List.countP_eq_zero.mpr fun p hp => by rw [h p hp]; simp [ProducerPhase.isReading]

theorem countDoneP_eq_length_of_done {l : List ProducerPhase}
    (h : ∀ p ∈ l, p = ProducerPhase.done) : countDoneP l = l.length :=
  List.countP_eq_length.mpr fun p hp => by rw [h p hp]; rfl

theorem countReading_replicate_running (n : Nat) :
    countReading (List.replicate n ProducerPhase.running) = 0 :=
  List.countP_eq_zero.mpr fun p hp => by
    rw [(List.mem_replicate.mp hp).2]; simp [ProducerPhase.isReading]

theorem countDoneP_replicate_running (n : Nat) :
    countDoneP (List.replicate n ProducerPhase.running) = 0 :=
  List.countP_eq_zero.mpr fun p hp => by
    rw [(List.mem_replicate.mp hp).2]; simp [ProducerPhase.isDone]

theorem inflight_replicate_running (n : Nat) :
    inflight (List.replicate n ProducerPhase.running) = [] :=
  List.filterMap_eq_nil.mpr fun p hp => by
    rw [(List.mem_replicate.mp hp).2]; rfl

/-! ## The global invariant

`PipeInv cfg s` collects the facts preserved by every step of every agent from
the initial state.  The claim theorems below are read off from it. -/

/-- Invariant of the pipeline state machine. -/
structure PipeInv (cfg : RunConfig) (s : RunState) : Prop where
  /-- values sent on `IDChan` are exactly `1, 2, …` in order -/
  issued_seq : s.issued = seqFrom1 s.issued.length
  /-- at most `numWidgets` identifiers are ever sent -/
  issued_le : s.issued.length ≤ cfg.numWidgets.toNat
  /-- the loop counter of `generateIDs` tracks the send history -/
  issuer_checking : ∀ i, s.issuer = IssuerPhase.checking i → i = (s.issued.length : Int) + 1
  /-- the pending send of `generateIDs` is the next identifier and within range -/
  issuer_sending : ∀ i, s.issuer = IssuerPhase.sending i →
    i = (s.issued.length : Int) + 1 ∧ i ≤ cfg.numWidgets
  /-- `IDChan` is closed exactly when `generateIDs` has returned -/
  closed_iff_done : s.idClosed = true ↔ s.issuer = IssuerPhase.done
  /-- `IDChan` is a FIFO: reads are a prefix of sends, the buffer is the rest -/
  id_split : s.delivered ++ s.idBuf = s.issued
  /-- `widgetChan` is a FIFO: consumption is a prefix of production -/
  widget_split : s.consumed ++ s.widgetBuf = s.produced
  /-- accounting of the shared counter: one decrement per completed or blocked read -/
  counter_eq : s.numOfWidgets =
    cfg.numWidgets - s.delivered.length - s.closedReads - countReading s.producers
  /-- closed reads happen only on a closed and drained `IDChan`, which stays drained -/
  closedReads_buf : 1 ≤ s.closedReads → s.idBuf = [] ∧ s.idClosed = true
  /-- once a producer exits on `numOfWidgets == 0`, the counter is pinned at zero -/
  zeroExit_counter : 1 ≤ s.zeroExits → s.numOfWidgets = 0
  /-- each finished producer exited by exactly one of the two error paths -/
  exits_eq : s.zeroExits + s.closedReads = countDoneP s.producers
  /-- every built widget renders its issued identifier and compares it to `k` -/
  pairs_wf : ∀ cw ∈ s.produced ++ inflight s.producers,
    cw.2.id = toString cw.1 ∧ cw.2.broken = (cw.1 == cfg.kthBadWidget)
  /-- built widgets correspond one-to-one with delivered identifiers -/
  pairs_perm : ((s.produced ++ inflight s.producers).map Prod.fst).Perm s.delivered
  /-- a stop signal (pending or already received) comes from a consumed broken widget -/
  sig_to_broken :
    ((∃ c ∈ s.consumers, c = ConsumerPhase.sendingSig) ∨ s.issuer = IssuerPhase.done) →
    ∃ cw ∈ s.consumed, cw.2.broken = true
  /-- `widgetChan` is closed only after every producer has returned -/
  wclosed_producers : s.widgetClosed = true → ∀ p ∈ s.producers, p = ProducerPhase.done
  /-- a consumer returns only after `widgetChan` was closed -/
  consumer_done_closed :
    (∃ c ∈ s.consumers, c = ConsumerPhase.done) → s.widgetClosed = true
  /-- when every consumer has returned, `widgetChan` has been drained -/
  consumers_done_buf : s.consumers ≠ [] →
    (∀ c ∈ s.consumers, c = ConsumerPhase.done) → s.widgetBuf = []
  /-- `generateIDs` receives exactly one signal on `sigChan`, when it returns -/
  sigR_eq : s.sigReceives = if s.issuer = IssuerPhase.done then 1 else 0
  /-- one `sigChan` send is attempted per broken widget consumed -/
  sigS_eq : s.sigSendsStarted = (s.consumed.filter (fun cw => cw.2.broken)).length
  prod_len : s.producers.length = cfg.numProducers.toNat
  cons_len : s.consumers.length = cfg.numConsumers.toNat

theorem inv_init (cfg : RunConfig) : PipeInv cfg (initState cfg) := by
  refine ⟨?_, ?_, ?_, ?_, ?_, ?_, ?_, ?_, ?_, ?_, ?_, ?_, ?_, ?_, ?_, ?_, ?_, ?_, ?_, ?_, ?_⟩
  · rfl
  · simp [initState]
  · intro i hi
    simp only [initState] at hi
    cases hi
    rfl
  · intro i hi
    simp [initState] at hi
  · simp [initState]
  · rfl
  · rfl
  · simp [initState, countReading_replicate_running]
  · intro h
    simp [initState] at h
  · intro h
    simp [initState] at h
  · simp [initState, countDoneP_replicate_running]
  · intro cw hcw
    simp [initState, inflight_replicate_running] at hcw
  · simp [initState, inflight_replicate_running]
  · intro h
    rcases h with ⟨c, hc, hcs⟩ | h
    · simp only [initState, List.mem_replicate] at hc
      rw [hcs] at hc
      simp at hc
    · simp [initState] at h
  · intro h
    simp [initState] at h
  · intro h
    rcases h with ⟨c, hc, hcd⟩
    simp only [initState, List.mem_replicate] at hc
    rw [hcd] at hc
    simp at hc
  · intro h
    obtain ⟨c, hc⟩ := List.exists_mem_of_ne_nil _ h
    intro hall
    have := hall c hc
    simp only [initState, List.mem_replicate] at hc
    rw [this] at hc
    simp at hc
  · simp [initState]
  · rfl
  · simp [initState, List.length_replicate]
  · simp [initState, List.length_replicate]

/-! ## Step preservation helpers -/

theorem isDoneP_iff {p : ProducerPhase} : p.isDone = true ↔ p = ProducerPhase.done := by
  cases p <;> simp [ProducerPhase.isDone]

theorem isDoneC_iff {c : ConsumerPhase} : c.isDone = true ↔ c = ConsumerPhase.done := by
  cases c <;> simp [ConsumerPhase.isDone]

theorem inflight_set_perm {l : List ProducerPhase} {i : Nat} (hlt : i < l.length)
    {v : ProducerPhase} (hv : inflightF v = none) (ho : inflightF l[i] = none) :
    (inflight (l.set i v)).Perm (inflight l) := by
  have h := filterMap_set_perm inflightF l i v hlt
  rw [ho, hv] at h
  simpa [inflight] using h

theorem inflight_set_perm_add {l : List ProducerPhase} {i : Nat} (hlt : i < l.length)
    (c : Int) (w : widget) (ho : inflightF l[i] = none) :
    (inflight (l.set i (ProducerPhase.sendingW c w))).Perm ((c, w) :: inflight l) := by
  have h := filterMap_set_perm inflightF l i (ProducerPhase.sendingW c w) hlt
  rw [ho] at h
  have h2 : (inflight l ++ [(c, w)]).Perm ((c, w) :: inflight l) :=
    List.perm_append_comm
  have h3 : (inflight (l.set i (ProducerPhase.sendingW c w))).Perm
      (inflight l ++ [(c, w)]) := by
    simpa [inflight, inflightF] using h
  exact h3.trans h2

theorem inflight_set_perm_remove {l : List ProducerPhase} {i : Nat} (hlt : i < l.length)
    {c : Int} {w : widget} (ho : l[i] = ProducerPhase.sendingW c w) :
    (inflight (l.set i ProducerPhase.running) ++ [(c, w)]).Perm (inflight l) := by
  have h := filterMap_set_perm inflightF l i ProducerPhase.running hlt
  rw [ho] at h
  simpa [inflight, inflightF] using h

theorem inv_stepCoord (cfg : RunConfig) (s : RunState) (h : PipeInv cfg s) :
    PipeInv cfg (stepCoord s) := by
  unfold stepCoord
  split_ifs with hg
  · rw [Bool.and_eq_true, Bool.not_eq_true'] at hg
    obtain ⟨hall, _⟩ := hg
    have hdone : ∀ p ∈ s.producers, p = ProducerPhase.done := fun p hp =>
      isDoneP_iff.mp (List.all_eq_true.mp hall p hp)
    exact ⟨h.issued_seq, h.issued_le, h.issuer_checking, h.issuer_sending,
      h.closed_iff_done, h.id_split, h.widget_split, h.counter_eq, h.closedReads_buf,
      h.zeroExit_counter, h.exits_eq, h.pairs_wf, h.pairs_perm, h.sig_to_broken,
      fun _ => hdone, fun _ => rfl, h.consumers_done_buf, h.sigR_eq, h.sigS_eq,
      h.prod_len, h.cons_len⟩
  · exact h

theorem inv_stepConsumer (cfg : RunConfig) (s : RunState) (i : Nat)
    (h : PipeInv cfg s) : PipeInv cfg (stepConsumer s i) := by
  cases hq : s.consumers[i]? with
  | none => simpa [stepConsumer, hq] using h
  | some ph =>
    obtain ⟨hlt, hget⟩ := List.getElem?_eq_some.mp hq
    cases ph with
    | sendingSig => simpa [stepConsumer, hq] using h
    | done => simpa [stepConsumer, hq] using h
    | running =>
      cases hbuf : s.widgetBuf with
      | nil =>
        simp only [stepConsumer, hq, hbuf]
        split_ifs with hwc
        · refine ⟨h.issued_seq, h.issued_le, h.issuer_checking, h.issuer_sending,
            h.closed_iff_done, h.id_split, ?_, h.counter_eq, h.closedReads_buf,
            h.zeroExit_counter, h.exits_eq, h.pairs_wf, h.pairs_perm, ?_,
            h.wclosed_producers, fun _ => hwc, fun _ _ => rfl, h.sigR_eq, h.sigS_eq,
            h.prod_len, ?_⟩
          · have hws := h.widget_split
            rw [hbuf] at hws
            simpa using hws
          · intro hh
            apply h.sig_to_broken
            rcases hh with ⟨c, hc, hcs⟩ | hd
            · rcases List.mem_or_eq_of_mem_set hc with hm | hv
              · exact Or.inl ⟨c, hm, hcs⟩
              · rw [hv] at hcs
                exact absurd hcs (by simp)
            · exact Or.inr hd
          · simp [List.length_set, h.cons_len]
        · exact h
      | cons cw rest =>
        obtain ⟨c, w⟩ := cw
        simp only [stepConsumer, hq, hbuf]
        have hsplit : s.consumed ++ [(c, w)] ++ rest = s.produced := by
          have := h.widget_split
          rw [hbuf, List.append_cons] at this
          exact this
        split_ifs with hbr
        · -- broken widget: pop, then block sending the stop signal
          refine ⟨h.issued_seq, h.issued_le, h.issuer_checking, h.issuer_sending,
            h.closed_iff_done, h.id_split, hsplit, h.counter_eq, h.closedReads_buf,
            h.zeroExit_counter, h.exits_eq, h.pairs_wf, h.pairs_perm, ?_, ?_, ?_, ?_,
            h.sigR_eq, ?_, h.prod_len, ?_⟩
          · intro _
            exact ⟨(c, w), by simp, hbr⟩
          · intro hwc
            exact h.wclosed_producers hwc
          · intro hh
            rcases hh with ⟨c', hc', hcd⟩
            rcases List.mem_or_eq_of_mem_set hc' with hm | hv
            · exact h.consumer_done_closed ⟨c', hm, hcd⟩
            · rw [hv] at hcd
              exact absurd hcd (by simp)
          · intro _ hall
            have hlt2 : i < (s.consumers.set i ConsumerPhase.sendingSig).length := by
              simpa using hlt
            have hmem := List.getElem_mem hlt2
            rw [List.getElem_set_self] at hmem
            have := hall _ hmem
            exact absurd this (by simp)
          · rw [List.filter_append, List.length_append, h.sigS_eq]
            simp [hbr]
          · simp [List.length_set, h.cons_len]
        · -- normal widget: pop and continue
          refine ⟨h.issued_seq, h.issued_le, h.issuer_checking, h.issuer_sending,
            h.closed_iff_done, h.id_split, hsplit, h.counter_eq, h.closedReads_buf,
            h.zeroExit_counter, h.exits_eq, h.pairs_wf, h.pairs_perm, ?_,
            h.wclosed_producers, h.consumer_done_closed, ?_, h.sigR_eq, ?_,
            h.prod_len, h.cons_len⟩
          · intro hh
            obtain ⟨cw', hm, hb⟩ := h.sig_to_broken hh
            exact ⟨cw', by simp [hm], hb⟩
          · intro _ hall
            have hmem := List.getElem_mem hlt
            rw [hget] at hmem
            have := hall _ hmem
            exact absurd this (by simp)
          · rw [List.filter_append, List.length_append, h.sigS_eq]
            simp [hbr]

/-- Preservation for the `sigChan` rendezvous: the issuer (from either the
`select` case or the final blocking wait) receives the signal of the first
blocked consumer, closes `IDChan` and returns. -/
theorem inv_receive (cfg : RunConfig) (s : RunState) (h : PipeInv cfg s) (j : Nat)
    (hlt : j < s.consumers.length) (hget : s.consumers[j] = ConsumerPhase.sendingSig)
    (hnd : s.issuer ≠ IssuerPhase.done) :
    PipeInv cfg { s with issuer := IssuerPhase.done, idClosed := true,
                         consumers := s.consumers.set j ConsumerPhase.running,
                         sigReceives := s.sigReceives + 1 } := by
  have hsigmem : ConsumerPhase.sendingSig ∈ s.consumers := by
    have := List.getElem_mem hlt
    rwa [hget] at this
  refine ⟨h.issued_seq, h.issued_le, ?_, ?_, by simp, h.id_split, h.widget_split,
    h.counter_eq, ?_, h.zeroExit_counter, h.exits_eq, h.pairs_wf, h.pairs_perm, ?_,
    h.wclosed_producers, ?_, ?_, ?_, h.sigS_eq, h.prod_len, ?_⟩
  · intro i hi
    exact absurd hi (by simp)
  · intro i hi
    exact absurd hi (by simp)
  · intro hcr
    have hd := h.closed_iff_done.mp (h.closedReads_buf hcr).2
    exact absurd hd hnd
  · intro _
    exact h.sig_to_broken (Or.inl ⟨_, hsigmem, rfl⟩)
  · intro hh
    rcases hh with ⟨c', hc', hcd⟩
    rcases List.mem_or_eq_of_mem_set hc' with hm | hv
    · exact h.consumer_done_closed ⟨c', hm, hcd⟩
    · rw [hv] at hcd
      exact absurd hcd (by simp)
  · intro _ hall
    have hlt2 : j < (s.consumers.set j ConsumerPhase.running).length := by
      simpa using hlt
    have hmem := List.getElem_mem hlt2
    rw [List.getElem_set_self] at hmem
    exact absurd (hall _ hmem) (by simp)
  · have h0 : s.sigReceives = 0 := by
      rw [h.sigR_eq, if_neg hnd]
    simp [h0]
  · simp [List.length_set, h.cons_len]

theorem inv_stepIssuer (cfg : RunConfig) (s : RunState) (h : PipeInv cfg s) :
    PipeInv cfg (stepIssuer cfg s) := by
  cases hI : s.issuer with
  | done => simpa [stepIssuer, hI] using h
  | finalWait =>
    cases hF : firstSig s.consumers with
    | none => simpa [stepIssuer, hI, hF] using h
    | some j =>
      obtain ⟨hlt, hget⟩ := firstSig_spec hF
      have := inv_receive cfg s h j hlt hget (by rw [hI]; simp)
      simpa [stepIssuer, hI, hF] using this
  | checking i =>
    have hieq := h.issuer_checking i hI
    have hncl : s.idClosed = false := by
      rcases hcl : s.idClosed with _ | _
      · rfl
      · have := h.closed_iff_done.mp hcl
        rw [hI] at this
        exact absurd this (by simp)
    simp only [stepIssuer, hI]
    split_ifs with hgt
    · -- loop exhausted: move to the final blocking wait
      refine ⟨h.issued_seq, h.issued_le, ?_, ?_, ?_, h.id_split, h.widget_split,
        h.counter_eq, h.closedReads_buf, h.zeroExit_counter, h.exits_eq, h.pairs_wf,
        h.pairs_perm, ?_, h.wclosed_producers, h.consumer_done_closed,
        h.consumers_done_buf, ?_, h.sigS_eq, h.prod_len, h.cons_len⟩
      · intro i' hi'
        exact absurd hi' (by simp)
      · intro i' hi'
        exact absurd hi' (by simp)
      · simp [hncl]
      · intro hh
        apply h.sig_to_broken
        rcases hh with hs | hd
        · exact Or.inl hs
        · exact absurd hd (by simp)
      · rw [h.sigR_eq, hI]
        simp
    · cases hF : firstSig s.consumers with
      | some j =>
        obtain ⟨hlt, hget⟩ := firstSig_spec hF
        exact inv_receive cfg s h j hlt hget (by rw [hI]; simp)
      | none =>
        -- select takes the default branch: move to the pending send
        refine ⟨h.issued_seq, h.issued_le, ?_, ?_, ?_, h.id_split, h.widget_split,
          h.counter_eq, h.closedReads_buf, h.zeroExit_counter, h.exits_eq, h.pairs_wf,
          h.pairs_perm, ?_, h.wclosed_producers, h.consumer_done_closed,
          h.consumers_done_buf, ?_, h.sigS_eq, h.prod_len, h.cons_len⟩
        · intro i' hi'
          exact absurd hi' (by simp)
        · intro i' hi'
          have : i = i' := by
            simpa using hi'
          subst this
          exact ⟨hieq, by omega⟩
        · simp [hncl]
        · intro hh
          apply h.sig_to_broken
          rcases hh with hs | hd
          · exact Or.inl hs
          · exact absurd hd (by simp)
        · rw [h.sigR_eq, hI]
          simp
  | sending i =>
    obtain ⟨hieq, hile⟩ := h.issuer_sending i hI
    have hncl : s.idClosed = false := by
      rcases hcl : s.idClosed with _ | _
      · rfl
      · have := h.closed_iff_done.mp hcl
        rw [hI] at this
        exact absurd this (by simp)
    simp only [stepIssuer, hI]
    refine ⟨?_, ?_, ?_, ?_, ?_, ?_, h.widget_split, h.counter_eq, ?_,
      h.zeroExit_counter, h.exits_eq, h.pairs_wf, h.pairs_perm, ?_,
      h.wclosed_producers, h.consumer_done_closed, h.consumers_done_buf, ?_,
      h.sigS_eq, h.prod_len, h.cons_len⟩
    · show s.issued ++ [i] = seqFrom1 (s.issued ++ [i]).length
      rw [List.length_append, List.length_singleton, seqFrom1_succ, ← h.issued_seq, hieq]
    · show (s.issued ++ [i]).length ≤ cfg.numWidgets.toNat
      rw [List.length_append, List.length_singleton]
      omega
    · intro i' hi'
      have : i + 1 = i' := by
        simpa using hi'
      subst this
      show i + 1 = ((s.issued ++ [i]).length : Int) + 1
      rw [List.length_append, List.length_singleton]
      push_cast
      omega
    · intro i' hi'
      exact absurd hi' (by simp)
    · simp [hncl]
    · show s.delivered ++ (s.idBuf ++ [i]) = s.issued ++ [i]
      rw [← List.append_assoc, h.id_split]
    · intro hcr
      have hd := h.closed_iff_done.mp (h.closedReads_buf hcr).2
      rw [hI] at hd
      exact absurd hd (by simp)
    · intro hh
      apply h.sig_to_broken
      rcases hh with hs | hd
      · exact Or.inl hs
      · exact absurd hd (by simp)
    · rw [h.sigR_eq, hI]
      simp

theorem inv_stepProducer (cfg : RunConfig) (s : RunState) (i : Nat)
    (h : PipeInv cfg s) : PipeInv cfg (stepProducer cfg s i) := by
  cases hq : s.producers[i]? with
  | none => simpa [stepProducer, hq] using h
  | some ph =>
    obtain ⟨hlt, hget⟩ := List.getElem?_eq_some.mp hq
    have hmemph : ph ∈ s.producers := by
      have := List.getElem_mem hlt
      rwa [hget] at this
    cases ph with
    | done => simpa [stepProducer, hq] using h
    | running =>
      simp only [stepProducer, hq]
      split_ifs with hz
      · -- `numOfWidgets == 0`: the producer returns with the exhaustion error
        have hcr : countReading (s.producers.set i ProducerPhase.done)
            = countReading s.producers := by
          have hca := countP_set_add ProducerPhase.isReading s.producers i
            ProducerPhase.done hlt
          rw [hget] at hca
          simpa [ProducerPhase.isReading] using hca
        have hcd : countDoneP (s.producers.set i ProducerPhase.done)
            = countDoneP s.producers + 1 := by
          have hca := countP_set_add ProducerPhase.isDone s.producers i
            ProducerPhase.done hlt
          rw [hget] at hca
          simpa [ProducerPhase.isDone] using hca
        have hinf : (inflight (s.producers.set i ProducerPhase.done)).Perm
            (inflight s.producers) :=
          inflight_set_perm hlt rfl (by rw [hget]; rfl)
        refine ⟨h.issued_seq, h.issued_le, h.issuer_checking, h.issuer_sending,
          h.closed_iff_done, h.id_split, h.widget_split, ?_, h.closedReads_buf,
          fun _ => hz, ?_, ?_, ?_, h.sig_to_broken, ?_, h.consumer_done_closed,
          h.consumers_done_buf, h.sigR_eq, h.sigS_eq, ?_, h.cons_len⟩
        · show s.numOfWidgets = cfg.numWidgets - s.delivered.length - s.closedReads
            - countReading (s.producers.set i ProducerPhase.done)
          rw [hcr]
          exact h.counter_eq
        · show s.zeroExits + 1 + s.closedReads
            = countDoneP (s.producers.set i ProducerPhase.done)
          rw [hcd]
          have := h.exits_eq
          omega
        · intro cw hcw
          rcases List.mem_append.mp hcw with hp | hin
          · exact h.pairs_wf cw (List.mem_append_left _ hp)
          · exact h.pairs_wf cw (List.mem_append_right _ (hinf.mem_iff.mp hin))
        · exact ((List.Perm.append_left s.produced hinf).map Prod.fst).trans h.pairs_perm
        · intro hwc p hp
          rcases List.mem_or_eq_of_mem_set hp with hm | hv
          · exact h.wclosed_producers hwc p hm
          · exact hv
        · simp [List.length_set, h.prod_len]
      · -- counter positive: decrement under `numMutex` and move to the receive
        have hcr : countReading (s.producers.set i ProducerPhase.reading)
            = countReading s.producers + 1 := by
          have hca := countP_set_add ProducerPhase.isReading s.producers i
            ProducerPhase.reading hlt
          rw [hget] at hca
          simpa [ProducerPhase.isReading] using hca
        have hcd : countDoneP (s.producers.set i ProducerPhase.reading)
            = countDoneP s.producers := by
          have hca := countP_set_add ProducerPhase.isDone s.producers i
            ProducerPhase.reading hlt
          rw [hget] at hca
          simpa [ProducerPhase.isDone] using hca
        have hinf : (inflight (s.producers.set i ProducerPhase.reading)).Perm
            (inflight s.producers) :=
          inflight_set_perm hlt rfl (by rw [hget]; rfl)
        refine ⟨h.issued_seq, h.issued_le, h.issuer_checking, h.issuer_sending,
          h.closed_iff_done, h.id_split, h.widget_split, ?_, h.closedReads_buf,
          ?_, ?_, ?_, ?_, h.sig_to_broken, ?_, h.consumer_done_closed,
          h.consumers_done_buf, h.sigR_eq, h.sigS_eq, ?_, h.cons_len⟩
        · show s.numOfWidgets - 1 = cfg.numWidgets - s.delivered.length - s.closedReads
            - countReading (s.producers.set i ProducerPhase.reading)
          rw [hcr]
          have := h.counter_eq
          push_cast
          omega
        · intro hze
          exact absurd (h.zeroExit_counter hze) hz
        · show s.zeroExits + s.closedReads
            = countDoneP (s.producers.set i ProducerPhase.reading)
          rw [hcd]
          exact h.exits_eq
        · intro cw hcw
          rcases List.mem_append.mp hcw with hp | hin
          · exact h.pairs_wf cw (List.mem_append_left _ hp)
          · exact h.pairs_wf cw (List.mem_append_right _ (hinf.mem_iff.mp hin))
        · exact ((List.Perm.append_left s.produced hinf).map Prod.fst).trans h.pairs_perm
        · intro hwc
          have := h.wclosed_producers hwc _ hmemph
          exact absurd this (by simp)
        · simp [List.length_set, h.prod_len]
    | reading =>
      cases hbuf : s.idBuf with
      | nil =>
        simp only [stepProducer, hq, hbuf]
        split_ifs with hcl
        · -- closed and drained channel: the producer returns with the closed error
          have hcr : countReading (s.producers.set i ProducerPhase.done) + 1
              = countReading s.producers := by
            have hca := countP_set_add ProducerPhase.isReading s.producers i
              ProducerPhase.done hlt
            rw [hget] at hca
            simpa [ProducerPhase.isReading] using hca
          have hcd : countDoneP (s.producers.set i ProducerPhase.done)
              = countDoneP s.producers + 1 := by
            have hca := countP_set_add ProducerPhase.isDone s.producers i
              ProducerPhase.done hlt
            rw [hget] at hca
            simpa [ProducerPhase.isDone] using hca
          have hinf : (inflight (s.producers.set i ProducerPhase.done)).Perm
              (inflight s.producers) :=
            inflight_set_perm hlt rfl (by rw [hget]; rfl)
          refine ⟨h.issued_seq, h.issued_le, h.issuer_checking, h.issuer_sending,
            h.closed_iff_done, ?_, h.widget_split, ?_, fun _ => ⟨rfl, hcl⟩,
            h.zeroExit_counter, ?_, ?_, ?_, h.sig_to_broken, ?_,
            h.consumer_done_closed, h.consumers_done_buf, h.sigR_eq, h.sigS_eq,
            ?_, h.cons_len⟩
          · show s.delivered ++ [] = s.issued
            have := h.id_split
            rwa [hbuf] at this
          · show s.numOfWidgets = cfg.numWidgets - s.delivered.length
              - (s.closedReads + 1)
              - countReading (s.producers.set i ProducerPhase.done)
            have := h.counter_eq
            omega
          · show s.zeroExits + (s.closedReads + 1)
              = countDoneP (s.producers.set i ProducerPhase.done)
            rw [hcd]
            have := h.exits_eq
            omega
          · intro cw hcw
            rcases List.mem_append.mp hcw with hp | hin
            · exact h.pairs_wf cw (List.mem_append_left _ hp)
            · exact h.pairs_wf cw (List.mem_append_right _ (hinf.mem_iff.mp hin))
          · exact ((List.Perm.append_left s.produced hinf).map Prod.fst).trans
              h.pairs_perm
          · intro hwc p hp
            rcases List.mem_or_eq_of_mem_set hp with hm | hv
            · exact h.wclosed_producers hwc p hm
            · exact hv
          · simp [List.length_set, h.prod_len]
        · exact h
      | cons c rest =>
        -- a buffered identifier is delivered; the widget is built as in
        -- `getWidget` lines 80–89
        simp only [stepProducer, hq, hbuf]
        have hcr : countReading (s.producers.set i
              (ProducerPhase.sendingW c (mkWidget c ((i : Int) + 1) s.clock
                cfg.kthBadWidget))) + 1
            = countReading s.producers := by
          have hca := countP_set_add ProducerPhase.isReading s.producers i
            (ProducerPhase.sendingW c (mkWidget c ((i : Int) + 1) s.clock
              cfg.kthBadWidget)) hlt
          rw [hget] at hca
          simpa [ProducerPhase.isReading] using hca
        have hcd : countDoneP (s.producers.set i
              (ProducerPhase.sendingW c (mkWidget c ((i : Int) + 1) s.clock
                cfg.kthBadWidget)))
            = countDoneP s.producers := by
          have hca := countP_set_add ProducerPhase.isDone s.producers i
            (ProducerPhase.sendingW c (mkWidget c ((i : Int) + 1) s.clock
              cfg.kthBadWidget)) hlt
          rw [hget] at hca
          simpa [ProducerPhase.isDone] using hca
        have hinf : (inflight (s.producers.set i
              (ProducerPhase.sendingW c (mkWidget c ((i : Int) + 1) s.clock
                cfg.kthBadWidget)))).Perm
            ((c, mkWidget c ((i : Int) + 1) s.clock cfg.kthBadWidget)
              :: inflight s.producers) :=
          inflight_set_perm_add hlt c _ (by rw [hget]; rfl)
        refine ⟨h.issued_seq, h.issued_le, h.issuer_checking, h.issuer_sending,
          h.closed_iff_done, ?_, h.widget_split, ?_, ?_, h.zeroExit_counter,
          ?_, ?_, ?_, h.sig_to_broken, ?_, h.consumer_done_closed,
          h.consumers_done_buf, h.sigR_eq, h.sigS_eq, ?_, h.cons_len⟩
        · show s.delivered ++ [c] ++ rest = s.issued
          have := h.id_split
          rwa [hbuf, List.append_cons] at this
        · show s.numOfWidgets = cfg.numWidgets - (s.delivered ++ [c]).length
            - s.closedReads - countReading (s.producers.set i _)
          have := h.counter_eq
          simp only [List.length_append, List.length_singleton]
          push_cast
          omega
        · intro hcr2
          have := (h.closedReads_buf hcr2).1
          rw [hbuf] at this
          exact absurd this (List.cons_ne_nil c rest)
        · show s.zeroExits + s.closedReads = countDoneP (s.producers.set i _)
          rw [hcd]
          exact h.exits_eq
        · intro cw hcw
          rcases List.mem_append.mp hcw with hp | hin
          · exact h.pairs_wf cw (List.mem_append_left _ hp)
          · rcases List.mem_cons.mp (hinf.mem_iff.mp hin) with hv | hm
            · rw [hv]
              exact ⟨rfl, rfl⟩
            · exact h.pairs_wf cw (List.mem_append_right _ hm)
        · -- one-to-one accounting gains `c` on both sides
          have h1 : ((s.produced ++ inflight (s.producers.set i
                (ProducerPhase.sendingW c (mkWidget c ((i : Int) + 1) s.clock
                  cfg.kthBadWidget)))).map Prod.fst).Perm
              ((s.produced ++ ((c, mkWidget c ((i : Int) + 1) s.clock
                cfg.kthBadWidget) :: inflight s.producers)).map Prod.fst) :=
            (List.Perm.append_left s.produced hinf).map Prod.fst
          have h2 : (s.produced ++ ((c, mkWidget c ((i : Int) + 1) s.clock
                cfg.kthBadWidget) :: inflight s.producers)).Perm
              ((c, mkWidget c ((i : Int) + 1) s.clock cfg.kthBadWidget)
                :: (s.produced ++ inflight s.producers)) :=
            List.perm_middle
          have h3 : (((c, mkWidget c ((i : Int) + 1) s.clock cfg.kthBadWidget)
                :: (s.produced ++ inflight s.producers)).map Prod.fst).Perm
              (s.delivered ++ [c]) := by
            refine List.Perm.trans ?_ List.perm_append_comm
            simp only [List.map_cons]
            exact List.Perm.cons c (h.pairs_perm)
          exact (h1.trans (h2.map Prod.fst)).trans h3
        · intro hwc
          have := h.wclosed_producers hwc _ hmemph
          exact absurd this (by simp)
        · simp [List.length_set, h.prod_len]
    | sendingW c w =>
      simp only [stepProducer, hq]
      have hcr : countReading (s.producers.set i ProducerPhase.running)
          = countReading s.producers := by
        have hca := countP_set_add ProducerPhase.isReading s.producers i
          ProducerPhase.running hlt
        rw [hget] at hca
        simpa [ProducerPhase.isReading] using hca
      have hcd : countDoneP (s.producers.set i ProducerPhase.running)
          = countDoneP s.producers := by
        have hca := countP_set_add ProducerPhase.isDone s.producers i
          ProducerPhase.running hlt
        rw [hget] at hca
        simpa [ProducerPhase.isDone] using hca
      have hrm := inflight_set_perm_remove hlt hget
      refine ⟨h.issued_seq, h.issued_le, h.issuer_checking, h.issuer_sending,
        h.closed_iff_done, h.id_split, ?_, ?_, h.closedReads_buf,
        h.zeroExit_counter, ?_, ?_, ?_, h.sig_to_broken, ?_,
        h.consumer_done_closed, ?_, h.sigR_eq, h.sigS_eq, ?_, h.cons_len⟩
      · show s.consumed ++ (s.widgetBuf ++ [(c, w)]) = s.produced ++ [(c, w)]
        rw [← List.append_assoc, h.widget_split]
      · show s.numOfWidgets = cfg.numWidgets - s.delivered.length - s.closedReads
          - countReading (s.producers.set i ProducerPhase.running)
        rw [hcr]
        exact h.counter_eq
      · show s.zeroExits + s.closedReads
          = countDoneP (s.producers.set i ProducerPhase.running)
        rw [hcd]
        exact h.exits_eq
      · intro cw hcw
        rcases List.mem_append.mp hcw with hp | hin
        · rcases List.mem_append.mp hp with hp' | hv
          · exact h.pairs_wf cw (List.mem_append_left _ hp')
          · have hv' : cw = (c, w) := by simpa using hv
            rw [hv']
            exact h.pairs_wf (c, w)
              (List.mem_append_right _ (mem_inflight_of_getElem hlt hget))
        · have : cw ∈ inflight (s.producers.set i ProducerPhase.running)
              ++ [(c, w)] := List.mem_append_left _ hin
          exact h.pairs_wf cw
            (List.mem_append_right _ (hrm.mem_iff.mp this))
      · -- accounting: the pushed widget moves from in-flight to produced
        have h1 : ((s.produced ++ [(c, w)])
              ++ inflight (s.producers.set i ProducerPhase.running)).Perm
            (s.produced ++ (inflight (s.producers.set i ProducerPhase.running)
              ++ [(c, w)])) := by
          rw [List.append_assoc]
          exact List.Perm.append_left s.produced List.perm_append_comm
        have h2 : (s.produced ++ (inflight (s.producers.set i ProducerPhase.running)
              ++ [(c, w)])).Perm (s.produced ++ inflight s.producers) :=
          List.Perm.append_left s.produced hrm
        exact ((h1.trans h2).map Prod.fst).trans h.pairs_perm
      · intro hwc
        have := h.wclosed_producers hwc _ hmemph
        exact absurd this (by simp)
      · intro hne hall
        obtain ⟨c0, hc0⟩ := List.exists_mem_of_ne_nil _ hne
        have hwcl := h.consumer_done_closed ⟨c0, hc0, hall c0 hc0⟩
        have := h.wclosed_producers hwcl _ hmemph
        exact absurd this (by simp)
      · simp [List.length_set, h.prod_len]

theorem inv_stepAgent (cfg : RunConfig) (s : RunState) (a : Agent)
    (h : PipeInv cfg s) : PipeInv cfg (stepAgent cfg s a) := by
  cases a with
  | issuer => exact inv_stepIssuer cfg s h
  | producer i => exact inv_stepProducer cfg s i h
  | consumer i => exact inv_stepConsumer cfg s i h
  | coord => exact inv_stepCoord cfg s h

theorem inv_foldl (cfg : RunConfig) :
    ∀ (sched : List Agent) (s : RunState), PipeInv cfg s →
      PipeInv cfg (sched.foldl (stepAgent cfg) s)
  | [], _, h => h
  | a :: rest, s, h => inv_foldl cfg rest _ (inv_stepAgent cfg s a h)

/-- Every reachable state of the pipeline satisfies the invariant. -/
theorem inv_run (cfg : RunConfig) (sched : List Agent) :
    PipeInv cfg (run cfg sched) :=
  inv_foldl cfg sched _ (inv_init cfg)

/-! ## Consequences at the end of a run -/

theorem producers_done_of_complete {s : RunState} (hcomp : runComplete s = true) :
    ∀ p ∈ s.producers, p = ProducerPhase.done := by
  rw [runComplete, Bool.and_eq_true, Bool.and_eq_true] at hcomp
  exact fun p hp => isDoneP_iff.mp (List.all_eq_true.mp hcomp.1.1 p hp)

theorem consumers_done_of_complete {s : RunState} (hcomp : runComplete s = true) :
    ∀ c ∈ s.consumers, c = ConsumerPhase.done := by
  rw [runComplete, Bool.and_eq_true, Bool.and_eq_true] at hcomp
  exact fun c hc => isDoneC_iff.mp (List.all_eq_true.mp hcomp.1.2 c hc)

/-- When every producer has returned (and at least one was spawned), `IDChan`
has been drained, and either all `numWidgets` identifiers were issued or the
issuer stopped after receiving the signal. -/
theorem idBuf_drained (cfg : RunConfig) (s : RunState) (h : PipeInv cfg s)
    (hp : 1 ≤ cfg.numProducers)
    (hPdone : ∀ p ∈ s.producers, p = ProducerPhase.done) :
    s.idBuf = [] ∧
      (s.issued.length = cfg.numWidgets.toNat ∨ s.issuer = IssuerPhase.done) := by
  have hcd : countDoneP s.producers = s.producers.length :=
    countDoneP_eq_length_of_done hPdone
  have hcr0 : countReading s.producers = 0 := countReading_eq_zero_of_done hPdone
  have hlen : s.producers.length = cfg.numProducers.toNat := h.prod_len
  have hex : s.zeroExits + s.closedReads = countDoneP s.producers := h.exits_eq
  have hone : 1 ≤ s.zeroExits + s.closedReads := by omega
  by_cases hclr : 1 ≤ s.closedReads
  · obtain ⟨hbuf, hcl⟩ := h.closedReads_buf hclr
    exact ⟨hbuf, Or.inr (h.closed_iff_done.mp hcl)⟩
  · have hze : 1 ≤ s.zeroExits := by omega
    have hz0 := h.zeroExit_counter hze
    have hcnt := h.counter_eq
    rw [hz0, hcr0] at hcnt
    have hsplit := h.id_split
    have hlensplit : s.delivered.length + s.idBuf.length = s.issued.length := by
      rw [← hsplit, List.length_append]
    have hle := h.issued_le
    have hbuf : s.idBuf = [] := by
      rw [← List.length_eq_zero]
      omega
    refine ⟨hbuf, Or.inl ?_⟩
    omega

/-- Summary facts at the point `main` returns: both channels drained, the
consumption history equals the production history, and the produced widgets
correspond one-to-one to the issued identifiers. -/
theorem complete_facts (cfg : RunConfig) (s : RunState) (h : PipeInv cfg s)
    (hp : 1 ≤ cfg.numProducers) (hc : 1 ≤ cfg.numConsumers)
    (hcomp : runComplete s = true) :
    s.delivered = s.issued ∧ s.consumed = s.produced ∧
      ((s.produced.map Prod.fst).Perm s.issued) ∧
      (s.issued.length = cfg.numWidgets.toNat ∨ s.issuer = IssuerPhase.done) := by
  have hPdone := producers_done_of_complete hcomp
  have hCdone := consumers_done_of_complete hcomp
  obtain ⟨hidbuf, hdisj⟩ := idBuf_drained cfg s h hp hPdone
  have hdel : s.delivered = s.issued := by
    have := h.id_split
    rwa [hidbuf, List.append_nil] at this
  have hcne : s.consumers ≠ [] := by
    intro hnil
    have := h.cons_len
    rw [hnil] at this
    simp only [List.length_nil] at this
    omega
  have hwbuf : s.widgetBuf = [] := h.consumers_done_buf hcne hCdone
  have hcons : s.consumed = s.produced := by
    have := h.widget_split
    rwa [hwbuf, List.append_nil] at this
  have hinf : inflight s.producers = [] := inflight_nil_of_done hPdone
  have hperm : (s.produced.map Prod.fst).Perm s.issued := by
    have := h.pairs_perm
    rw [hinf, List.append_nil, hdel] at this
    exact this
  exact ⟨hdel, hcons, hperm, hdisj⟩

/-! ## Broken-widget accounting -/

/-- Number of broken widgets ever pushed to `widgetChan`. -/
def brokenProduced (s : RunState) : Nat :=
  (s.produced.filter (fun cw => cw.2.broken)).length

theorem brokenProduced_eq_count (cfg : RunConfig) (s : RunState) (h : PipeInv cfg s) :
    brokenProduced s = (s.produced.map Prod.fst).count cfg.kthBadWidget := by
  unfold brokenProduced
  have hcongr : s.produced.filter (fun cw => cw.2.broken)
      = s.produced.filter (fun cw => cw.1 == cfg.kthBadWidget) :=
    List.filter_congr fun cw hcw => by
      rw [(h.pairs_wf cw (List.mem_append_left _ hcw)).2]
  rw [hcongr, ← List.countP_eq_length_filter, List.count, List.countP_map]
  rfl

theorem count_issued_le_one (cfg : RunConfig) (s : RunState) (h : PipeInv cfg s)
    (x : Int) : s.issued.count x ≤ 1 := by
  rw [h.issued_seq, count_seqFrom1]
  split_ifs <;> omega

/-- At most one broken widget is ever produced, in every reachable state. -/
theorem brokenProduced_le_one (cfg : RunConfig) (s : RunState) (h : PipeInv cfg s) :
    brokenProduced s ≤ 1 := by
  rw [brokenProduced_eq_count cfg s h]
  have h2 : (s.produced.map Prod.fst).count cfg.kthBadWidget
      ≤ ((s.produced ++ inflight s.producers).map Prod.fst).count cfg.kthBadWidget := by
    apply List.Sublist.count_le
    rw [List.map_append]
    exact List.sublist_append_left _ _
  have h3 := h.pairs_perm.count_eq cfg.kthBadWidget
  have h4 : s.delivered.count cfg.kthBadWidget ≤ s.issued.count cfg.kthBadWidget :=
    List.IsPrefix.count_le ⟨s.idBuf, h.id_split⟩ cfg.kthBadWidget
  have h5 := count_issued_le_one cfg s h cfg.kthBadWidget
  omega

/-! ## Concrete runs used as witnesses and counterexamples -/

/-- `-n 1 -p 1 -c 1 -k 1`: the single widget is broken and stops the issuer. -/
def cfgStop : RunConfig := ⟨1, 1, 1, 1⟩

/-- A complete interleaving for `cfgStop`: the issuer sends id 1 and reaches
the final wait; the producer builds and pushes the (broken) widget and the
consumer pops it and blocks on `sigChan`; the issuer receives the signal and
closes; the producer then exits on the zero counter, the coordinator closes
`widgetChan` and the consumer drains and exits. -/
def schedStop : List Agent :=
  [Agent.issuer, Agent.issuer, Agent.issuer, Agent.producer 0, Agent.producer 0,
   Agent.producer 0, Agent.consumer 0, Agent.issuer, Agent.producer 0,
   Agent.coord, Agent.consumer 0]

/-- `-n 1 -p 1 -c 1 -k -1`: no widget is ever broken. -/
def cfgNoStop : RunConfig := ⟨1, 1, 1, -1⟩

/-- A complete interleaving for `cfgNoStop`: everything is produced and
consumed, and the issuer is left blocked in its final `<-sigChan` wait. -/
def schedNoStop : List Agent :=
  [Agent.issuer, Agent.issuer, Agent.issuer, Agent.producer 0, Agent.producer 0,
   Agent.producer 0, Agent.producer 0, Agent.coord, Agent.consumer 0,
   Agent.consumer 0]

/-- `-n 3 -p 1 -c 1 -k 1`: the first widget is broken while ids 2 and 3 are
still buffered in `IDChan`. -/
def cfgDrain : RunConfig := ⟨3, 1, 1, 1⟩

/-- An interleaving for `cfgDrain` ending right after the issuer receives the
stop signal and closes `IDChan`, with ids 2 and 3 still in its buffer. -/
def schedDrain : List Agent :=
  [Agent.issuer, Agent.issuer, Agent.issuer, Agent.issuer, Agent.issuer,
   Agent.issuer, Agent.issuer, Agent.producer 0, Agent.producer 0,
   Agent.producer 0, Agent.consumer 0, Agent.issuer]

/-! ## Claim theorems -/

/-- C1: a produced widget has `broken = true` iff its issued identifier equals
the configured bad ordinal `k` (`getWidget`, line 82); hence at most one
widget of any run is broken, and at the end of a complete run with at least
one producer and one consumer, exactly one widget is broken when
`1 ≤ k ≤ numWidgets` and none otherwise. -/
theorem broken_iff_id_eq_k (cfg : RunConfig) (sched : List Agent) :
    (∀ cw ∈ (run cfg sched).produced,
        cw.2.broken = (cw.1 == cfg.kthBadWidget))
    ∧ brokenProduced (run cfg sched) ≤ 1
    ∧ (1 ≤ cfg.numProducers → 1 ≤ cfg.numConsumers →
        runComplete (run cfg sched) = true →
        brokenProduced (run cfg sched)
          = if 1 ≤ cfg.kthBadWidget ∧ cfg.kthBadWidget ≤ cfg.numWidgets
            then 1 else 0) := by
  have h := inv_run cfg sched
  refine ⟨fun cw hcw => (h.pairs_wf cw (List.mem_append_left _ hcw)).2,
    brokenProduced_le_one cfg _ h, ?_⟩
  intro hp hc hcomp
  obtain ⟨hdel, hcons, hperm, hdisj⟩ := complete_facts cfg _ h hp hc hcomp
  rw [brokenProduced_eq_count cfg _ h, hperm.count_eq, h.issued_seq, count_seqFrom1]
  have hle := h.issued_le
  by_cases h1 : 1 ≤ cfg.kthBadWidget ∧ cfg.kthBadWidget ≤ cfg.numWidgets
  · have hin : 1 ≤ cfg.kthBadWidget
        ∧ cfg.kthBadWidget ≤ ((run cfg sched).issued.length : Int) := by
      rcases hdisj with hm | hdone
      · refine ⟨h1.1, ?_⟩
        omega
      · obtain ⟨cw, hmem, hb⟩ := h.sig_to_broken (Or.inr hdone)
        rw [hcons] at hmem
        have hwf := (h.pairs_wf cw (List.mem_append_left _ hmem)).2
        rw [hb] at hwf
        have hck : cw.1 = cfg.kthBadWidget := beq_iff_eq.mp hwf.symm
        have hfst : cfg.kthBadWidget ∈ (run cfg sched).produced.map Prod.fst :=
          List.mem_map.mpr ⟨cw, hmem, hck⟩
        have hiss := hperm.mem_iff.mp hfst
        rw [h.issued_seq] at hiss
        have := mem_seqFrom1.mp hiss
        exact ⟨h1.1, this.2⟩
    rw [if_pos hin, if_pos h1]
  · have hout : ¬(1 ≤ cfg.kthBadWidget
        ∧ cfg.kthBadWidget ≤ ((run cfg sched).issued.length : Int)) := by
      intro hin
      exact h1 ⟨hin.1, by omega⟩
    rw [if_neg hout, if_neg h1]

/-- Witness for C1 at the configuration `-n 1 -p 1 -c 1 -k 1` and the complete
schedule `schedStop`: exactly one broken widget. -/
theorem broken_iff_id_eq_k_witness :
    runComplete (run cfgStop schedStop) = true
      ∧ brokenProduced (run cfgStop schedStop) = 1 := by
  have h := (broken_iff_id_eq_k cfgStop schedStop).2.2 (by decide) (by decide) (by decide)
  refine ⟨by decide, ?_⟩
  rw [h]
  decide

/-- C2: the identifiers sent by the issuer are exactly `1, 2, 3, …` — strictly
increasing, no gaps, no repeats — never more than `numWidgets` of them, and a
complete run either issues all `numWidgets` of them or was stopped by a
signal (the issuer returned). -/
theorem issued_ids_exact (cfg : RunConfig) (sched : List Agent) :
    (run cfg sched).issued = seqFrom1 (run cfg sched).issued.length
    ∧ (run cfg sched).issued.length ≤ cfg.numWidgets.toNat
    ∧ (1 ≤ cfg.numProducers → runComplete (run cfg sched) = true →
        ((run cfg sched).issued.length = cfg.numWidgets.toNat
          ∨ (run cfg sched).issuer = IssuerPhase.done)) := by
  have h := inv_run cfg sched
  exact ⟨h.issued_seq, h.issued_le, fun hp hcomp =>
    (idBuf_drained cfg _ h hp (producers_done_of_complete hcomp)).2⟩

/-- Witness for C2: in the complete run `schedNoStop` all ids are issued. -/
theorem issued_ids_exact_witness :
    (run cfgNoStop schedNoStop).issued
        = seqFrom1 (run cfgNoStop schedNoStop).issued.length
    ∧ ((run cfgNoStop schedNoStop).issued.length = cfgNoStop.numWidgets.toNat
        ∨ (run cfgNoStop schedNoStop).issuer = IssuerPhase.done) := by
  obtain ⟨h1, _, h3⟩ := issued_ids_exact cfgNoStop schedNoStop
  exact ⟨h1, h3 (by decide) (by decide)⟩

/-- C3: at the end of a complete run with at least one producer and one
consumer, the consumption history equals the production history (no drops,
no duplicates) and the produced widgets correspond one-to-one to the issued
identifiers. -/
theorem consumed_eq_produced (cfg : RunConfig) (sched : List Agent)
    (hp : 1 ≤ cfg.numProducers) (hc : 1 ≤ cfg.numConsumers)
    (hcomp : runComplete (run cfg sched) = true) :
    (run cfg sched).consumed = (run cfg sched).produced
    ∧ (run cfg sched).produced.length = (run cfg sched).issued.length
    ∧ ((run cfg sched).produced.map Prod.fst).Perm (run cfg sched).issued := by
  have h := inv_run cfg sched
  obtain ⟨hdel, hcons, hperm, _⟩ := complete_facts cfg _ h hp hc hcomp
  refine ⟨hcons, ?_, hperm⟩
  have := hperm.length_eq
  simpa using this

/-- Witness for C3 at the complete run `schedStop` (early stop included). -/
theorem consumed_eq_produced_witness :
    (run cfgStop schedStop).consumed = (run cfgStop schedStop).produced
    ∧ (run cfgStop schedStop).produced.length = (run cfgStop schedStop).issued.length
    ∧ ((run cfgStop schedStop).produced.map Prod.fst).Perm
        (run cfgStop schedStop).issued :=
  consumed_eq_produced cfgStop schedStop (by decide) (by decide) (by decide)

/-- After `close(IDChan)` no step of any goroutine sends another identifier:
only the issuer's `sending` phase extends `issued`, and a closed channel
means the issuer has returned. -/
theorem stepAgent_issued_of_closed (cfg : RunConfig) (s : RunState) (a : Agent)
    (h : PipeInv cfg s) (hcl : s.idClosed = true) :
    (stepAgent cfg s a).issued = s.issued := by
  have hdone := h.closed_iff_done.mp hcl
  cases a with
  | issuer => simp [stepAgent, stepIssuer, hdone]
  | coord =>
    simp only [stepAgent, stepCoord]
    split_ifs <;> rfl
  | producer i =>
    cases hq : s.producers[i]? with
    | none => simp [stepAgent, stepProducer, hq]
    | some ph =>
      cases ph with
      | running =>
        simp only [stepAgent, stepProducer, hq]
        split_ifs <;> rfl
      | reading =>
        cases hbuf : s.idBuf with
        | cons c rest => simp [stepAgent, stepProducer, hq, hbuf]
        | nil =>
          simp only [stepAgent, stepProducer, hq, hbuf]
          split_ifs <;> rfl
      | sendingW c w => simp [stepAgent, stepProducer, hq]
      | done => simp [stepAgent, stepProducer, hq]
  | consumer i =>
    cases hq : s.consumers[i]? with
    | none => simp [stepAgent, stepConsumer, hq]
    | some ph =>
      cases ph with
      | running =>
        cases hbuf : s.widgetBuf with
        | cons cw rest =>
          obtain ⟨c, w⟩ := cw
          simp only [stepAgent, stepConsumer, hq, hbuf]
          split_ifs <;> rfl
        | nil =>
          simp only [stepAgent, stepConsumer, hq, hbuf]
          split_ifs <;> rfl
      | sendingSig => simp [stepAgent, stepConsumer, hq]
      | done => simp [stepAgent, stepConsumer, hq]

/-- `IDChan` stays closed once closed. -/
theorem stepAgent_closed_of_closed (cfg : RunConfig) (s : RunState) (a : Agent)
    (h : PipeInv cfg s) (hcl : s.idClosed = true) :
    (stepAgent cfg s a).idClosed = true := by
  have hdone := h.closed_iff_done.mp hcl
  cases a with
  | issuer => simpa [stepAgent, stepIssuer, hdone] using hcl
  | coord =>
    simp only [stepAgent, stepCoord]
    split_ifs <;> exact hcl
  | producer i =>
    cases hq : s.producers[i]? with
    | none => simpa [stepAgent, stepProducer, hq] using hcl
    | some ph =>
      cases ph with
      | running =>
        simp only [stepAgent, stepProducer, hq]
        split_ifs <;> exact hcl
      | reading =>
        cases hbuf : s.idBuf with
        | cons c rest => simpa [stepAgent, stepProducer, hq, hbuf] using hcl
        | nil =>
          simp only [stepAgent, stepProducer, hq, hbuf]
          split_ifs <;> exact hcl
      | sendingW c w => simpa [stepAgent, stepProducer, hq] using hcl
      | done => simpa [stepAgent, stepProducer, hq] using hcl
  | consumer i =>
    cases hq : s.consumers[i]? with
    | none => simpa [stepAgent, stepConsumer, hq] using hcl
    | some ph =>
      cases ph with
      | running =>
        cases hbuf : s.widgetBuf with
        | cons cw rest =>
          obtain ⟨c, w⟩ := cw
          simp only [stepAgent, stepConsumer, hq, hbuf]
          split_ifs <;> exact hcl
        | nil =>
          simp only [stepAgent, stepConsumer, hq, hbuf]
          split_ifs <;> exact hcl
      | sendingSig => simpa [stepAgent, stepConsumer, hq] using hcl
      | done => simpa [stepAgent, stepConsumer, hq] using hcl

theorem foldl_issued_of_closed (cfg : RunConfig) :
    ∀ (ext : List Agent) (s : RunState), PipeInv cfg s → s.idClosed = true →
      (ext.foldl (stepAgent cfg) s).issued = s.issued
  | [], _, _, _ => rfl
  | a :: rest, s, h, hcl => by
    rw [List.foldl_cons,
      foldl_issued_of_closed cfg rest _ (inv_stepAgent cfg s a h)
        (stepAgent_closed_of_closed cfg s a h hcl)]
    exact stepAgent_issued_of_closed cfg s a h hcl

/-- Counterexample to C4: in the run `schedDrain` the issuer has observed the
stop signal and closed `IDChan` after granting only id 1 (`delivered` has
length 1), yet the producer's next request-next-id receive returns the
buffered identifier 2 — not the closed indication. -/
theorem post_close_read_returns_id :
    (run cfgDrain schedDrain).idClosed = true
    ∧ (run cfgDrain schedDrain).delivered = [1]
    ∧ (run cfgDrain (schedDrain ++ [Agent.producer 0, Agent.producer 0])).delivered
        = [1, 2] := by decide

/-- C4 amended: once the issuer observes the stop signal and closes `IDChan`,
no further identifier is ever granted (under any continuation of the
schedule), and the identifiers subsequent reads can still receive are exactly
the ones granted before the stop and still buffered — after those, reads
report closed. -/
theorem stop_closes_and_drains (cfg : RunConfig) (sched ext : List Agent)
    (hcl : (run cfg sched).idClosed = true) :
    (run cfg (sched ++ ext)).issued = (run cfg sched).issued
    ∧ (run cfg sched).delivered ++ (run cfg sched).idBuf = (run cfg sched).issued := by
  constructor
  · rw [run, List.foldl_append]
    exact foldl_issued_of_closed cfg ext _ (inv_run cfg sched) hcl
  · exact (inv_run cfg sched).id_split

/-- Witness for the amended C4 at the closed state of `schedDrain`. -/
theorem stop_closes_and_drains_witness :
    (run cfgDrain (schedDrain ++ [Agent.producer 0, Agent.producer 0])).issued
        = (run cfgDrain schedDrain).issued
    ∧ (run cfgDrain schedDrain).delivered ++ (run cfgDrain schedDrain).idBuf
        = (run cfgDrain schedDrain).issued :=
  stop_closes_and_drains cfgDrain schedDrain [Agent.producer 0, Agent.producer 0]
    (by decide)

/-- The issuer goroutine returns only in runs in which a broken widget was
consumed; when the bad ordinal is non-positive no identifier can ever match
it, so the issuer can never return. -/
theorem issuer_never_done_of_k_nonpos (cfg : RunConfig) (sched : List Agent)
    (hk : cfg.kthBadWidget ≤ 0) :
    (run cfg sched).issuer ≠ IssuerPhase.done := by
  intro hd
  have h := inv_run cfg sched
  obtain ⟨cw, hm, hb⟩ := h.sig_to_broken (Or.inr hd)
  have hmp : cw ∈ (run cfg sched).produced := by
    rw [← h.widget_split]
    exact List.mem_append_left _ hm
  have hwf := (h.pairs_wf cw (List.mem_append_left _ hmp)).2
  rw [hb] at hwf
  have hck : cw.1 = cfg.kthBadWidget := beq_iff_eq.mp hwf.symm
  have hfst : cw.1 ∈ ((run cfg sched).produced
      ++ inflight (run cfg sched).producers).map Prod.fst :=
    List.mem_map.mpr ⟨cw, List.mem_append_left _ hmp, rfl⟩
  have hdel := h.pairs_perm.mem_iff.mp hfst
  have hiss : cw.1 ∈ (run cfg sched).issued := by
    rw [← h.id_split]
    exact List.mem_append_left _ hdel
  rw [h.issued_seq] at hiss
  have := mem_seqFrom1.mp hiss
  omega

/-- Counterexample to C5: with `-n 1 -p 1 -c 1 -k -1` the pipeline completes
(all producers and consumers return, `main` returns), yet the issuer
goroutine is blocked in its final `<-sigChan` wait and no continuation of the
schedule can ever make it return — the issuer thread leaks in every run in
which no stop signal is sent. -/
theorem issuer_leaks_without_stop :
    runComplete (run cfgNoStop schedNoStop) = true
    ∧ (run cfgNoStop schedNoStop).issuer = IssuerPhase.finalWait
    ∧ ¬ ∃ ext : List Agent,
        (run cfgNoStop (schedNoStop ++ ext)).issuer = IssuerPhase.done := by
  refine ⟨by decide, by decide, ?_⟩
  rintro ⟨ext, hd⟩
  exact issuer_never_done_of_k_nonpos cfgNoStop (schedNoStop ++ ext) (by decide) hd

/-- C5 amended: the issuer goroutine terminates only when a stop signal is
delivered — whenever it has returned, some consumed widget was broken — and
in runs whose configuration admits no broken widget (non-positive bad
ordinal) it never terminates, although `main` itself still returns. -/
theorem issuer_done_iff_signal (cfg : RunConfig) (sched : List Agent) :
    ((run cfg sched).issuer = IssuerPhase.done →
      ∃ cw ∈ (run cfg sched).consumed, cw.2.broken = true)
    ∧ (cfg.kthBadWidget ≤ 0 → (run cfg sched).issuer ≠ IssuerPhase.done) :=
  ⟨fun hd => (inv_run cfg sched).sig_to_broken (Or.inr hd),
   fun hk => issuer_never_done_of_k_nonpos cfg sched hk⟩

/-- Witness for the amended C5: in `schedStop` the issuer has returned and a
broken widget was indeed consumed; in `schedNoStop` (bad ordinal `-1`) the
issuer has not returned. -/
theorem issuer_done_iff_signal_witness :
    (∃ cw ∈ (run cfgStop schedStop).consumed, cw.2.broken = true)
    ∧ (run cfgNoStop schedNoStop).issuer ≠ IssuerPhase.done :=
  ⟨(issuer_done_iff_signal cfgStop schedStop).1 (by decide),
   (issuer_done_iff_signal cfgNoStop schedNoStop).2 (by decide)⟩

/-- Counterexample to C6: `sigChan` is unbuffered (`make(chan int)`, line 230)
and the issuer performs at most one receive on it in any run whatsoever
(exactly one when it returns, as in the completed run `schedStop`).  A second
invocation of the stop operation would therefore never find a receiver: of
two attempted sends one completes at most, and `blockedStopSenders 2 1 = 1`
sender stays blocked forever — the duplicate signal is not absorbed. -/
theorem duplicate_stop_send_blocks :
    (run cfgStop schedStop).sigReceives = 1
    ∧ (¬ ∃ sched : List Agent, 2 ≤ (run cfgStop sched).sigReceives)
    ∧ blockedStopSenders 2 1 = 1 := by
  refine ⟨by decide, ?_, by decide⟩
  rintro ⟨sched, hs⟩
  have h := (inv_run cfgStop sched).sigR_eq
  rw [h] at hs
  split_ifs at hs <;> omega

/-- C6 amended: the program relies on single-sender discipline, not on
absorbing duplicates: in every run at most one send on `sigChan` is ever
attempted (at most one widget is broken, and only consuming a broken widget
sends), and the issuer performs at most one receive, which is what makes the
single attempted send safe. -/
theorem stop_single_sender (cfg : RunConfig) (sched : List Agent) :
    (run cfg sched).sigSendsStarted ≤ 1 ∧ (run cfg sched).sigReceives ≤ 1 := by
  have h := inv_run cfg sched
  constructor
  · rw [h.sigS_eq]
    have hsub : (run cfg sched).consumed.Sublist (run cfg sched).produced := by
      rw [← h.widget_split]
      exact List.sublist_append_left _ _
    have hlen : ((run cfg sched).consumed.filter (fun cw => cw.2.broken)).length
        ≤ ((run cfg sched).produced.filter (fun cw => cw.2.broken)).length :=
      (hsub.filter _).length_le
    have hone := brokenProduced_le_one cfg _ h
    unfold brokenProduced at hone
    omega
  · rw [h.sigR_eq]
    split_ifs <;> omega

/-- C7: `getWidget` returns an error iff the tracked remaining count is zero
(`numOfWidgets == 0`, line 65) or the `IDChan` receive reports closed
(line 76); in every other case it returns, with no error, the widget built
from the issued identifier — id rendered from it, the producer's source tag,
the creation tick, and `broken` computed by comparing it to the bad
ordinal. -/
theorem getWidget_spec (g : producerGroup) (pn : Int) (now : Nat) (r : IdRead) :
    (((getWidget g pn now r).1.2).isSome
        ↔ (g.numOfWidgets = 0 ∨ r = IdRead.closed))
    ∧ (g.numOfWidgets ≠ 0 → ∀ c, r = IdRead.value c →
        (getWidget g pn now r).1 = (mkWidget c pn now g.badWidgetNum, none)) := by
  constructor
  · unfold getWidget
    dsimp only
    split_ifs with hz
    · simp [hz]
    · cases r <;> simp [hz]
  · intro hz c hr
    subst hr
    unfold getWidget
    dsimp only
    rw [if_neg hz]

/-- Witness for C7: a successful fetch with identifier 2, remaining count 5,
bad ordinal 2 — the returned widget is built from the issued identifier. -/
theorem getWidget_spec_witness :
    (getWidget ⟨1, 5, 2, 0⟩ 1 0 (IdRead.value 2)).1 = (mkWidget 2 1 0 2, none) :=
  (getWidget_spec ⟨1, 5, 2, 0⟩ 1 0 (IdRead.value 2)).2 (by decide) 2 rfl

/-- Counterexample to C9: a producer's `getWidget` call acquires the
group-shared `numMutex` (the ghost lock counter increases) and decrements the
group-shared `numOfWidgets`; the group state is not preserved, and a second
producer's call observes the effect — with one widget remaining, producer 1's
successful call makes producer 2's call fail.  The exhaustion bookkeeping
therefore lives in the shared producer group, not in the ID issuer. -/
theorem producers_share_counter_mutex :
    ((getWidget ⟨2, 5, 3, 0⟩ 1 0 (IdRead.value 1)).2.numMutexLocks = 1)
    ∧ ((getWidget ⟨2, 5, 3, 0⟩ 1 0 (IdRead.value 1)).2.numOfWidgets = 4)
    ∧ ((getWidget ⟨2, 5, 3, 0⟩ 1 0 (IdRead.value 1)).2 ≠ (⟨2, 5, 3, 0⟩ : producerGroup))
    ∧ (((getWidget ((getWidget ⟨2, 1, 3, 0⟩ 1 0 (IdRead.value 1)).2) 2 0
        (IdRead.value 2)).1.2).isSome = true) := by decide

/-- C9 amended: every `getWidget` call locks the `numMutex` shared by all
producers of the group (exactly once), and whenever the remaining count is
nonzero it decrements the shared `numOfWidgets`; only identifier uniqueness
and ordering are delegated to the ID issuer. -/
theorem getWidget_locks_shared_mutex (g : producerGroup) (pn : Int) (now : Nat)
    (r : IdRead) :
    (getWidget g pn now r).2.numMutexLocks = g.numMutexLocks + 1
    ∧ (g.numOfWidgets ≠ 0 →
        (getWidget g pn now r).2.numOfWidgets = g.numOfWidgets - 1) := by
  constructor
  · unfold getWidget
    dsimp only
    split_ifs
    · rfl
    · cases r <;> rfl
  · intro hz
    unfold getWidget
    dsimp only
    rw [if_neg hz]
    cases r <;> rfl

/-- Witness for the amended C9: a call that hits the closed channel still
locked the shared mutex and still decremented the shared counter. -/
theorem getWidget_locks_shared_mutex_witness :
    (getWidget ⟨1, 7, 2, 0⟩ 1 0 IdRead.closed).2.numMutexLocks = 1
    ∧ (getWidget ⟨1, 7, 2, 0⟩ 1 0 IdRead.closed).2.numOfWidgets = 6 :=
  ⟨(getWidget_locks_shared_mutex ⟨1, 7, 2, 0⟩ 1 0 IdRead.closed).1,
   (getWidget_locks_shared_mutex ⟨1, 7, 2, 0⟩ 1 0 IdRead.closed).2 (by decide)⟩

/-- C10: when the `IDChan` receive reports closed, `getWidget` returns the
closed error but the shared remaining count has already been decremented
(line 70) and is not restored on the error path. -/
theorem getWidget_closed_decrements (g : producerGroup) (pn : Int) (now : Nat)
    (hz : g.numOfWidgets ≠ 0) :
    ((getWidget g pn now IdRead.closed).1.2).isSome = true
    ∧ (getWidget g pn now IdRead.closed).2.numOfWidgets = g.numOfWidgets - 1 := by
  unfold getWidget
  dsimp only
  rw [if_neg hz]
  exact ⟨rfl, rfl⟩

/-- Witness for C10: starting from a remaining count of 2, two closed-channel
fetches drive the counter to 0 although no widget was produced. -/
theorem getWidget_closed_decrements_witness :
    ((getWidget ⟨1, 2, -1, 0⟩ 1 0 IdRead.closed).1.2).isSome = true
    ∧ (getWidget ⟨1, 2, -1, 0⟩ 1 0 IdRead.closed).2.numOfWidgets = 1
    ∧ (getWidget ((getWidget ⟨1, 2, -1, 0⟩ 1 0 IdRead.closed).2) 1 0
        IdRead.closed).2.numOfWidgets = 0 := by
  refine ⟨(getWidget_closed_decrements ⟨1, 2, -1, 0⟩ 1 0 (by decide)).1, ?_, ?_⟩
  · exact (getWidget_closed_decrements ⟨1, 2, -1, 0⟩ 1 0 (by decide)).2
  · have h := (getWidget_closed_decrements ((getWidget ⟨1, 2, -1, 0⟩ 1 0
      IdRead.closed).2) 1 0 (by decide)).2
    rw [h]
    decide

/-- Counterexample to C8: `parseArgs` accepts `-p 0` without any error — no
`InvalidConfiguration` is ever returned for non-positive worker counts — and
`main` then proceeds: the issuer goroutine is spawned and starts issuing
identifiers even though zero producers and zero consumers exist. -/
theorem invalid_config_not_rejected :
    parseArgs ["-p", "0"] = Except.ok (10, 1, 0, -1)
    ∧ (initState ⟨10, 0, 0, -1⟩).producers = []
    ∧ (initState ⟨10, 0, 0, -1⟩).consumers = []
    ∧ (run ⟨10, 0, 0, -1⟩ [Agent.issuer, Agent.issuer]).issued = [1] :=
  ⟨rfl, by decide, by decide, by decide⟩

/-- C8 amended: the code performs no positivity validation — `parseArgs`
errors only on an odd argument count, a non-integer quantity, or an unknown
option — so no `InvalidConfiguration` error exists, and with
`producerCount = 0` or `consumerCount = 0` the run does not fail fast:
`parseArgs` accepts `-p 0` and `-c 0` without error, `main` proceeds and
spawns the ID-issuer goroutine together with zero producer or consumer
goroutines (the spawn loops from 1 to 0 run no iteration), and the issuer
starts issuing identifiers.  (A negative count also passes `parseArgs`
unvalidated, but then `main` panics in `WaitGroup.Add` — still not the
specified fail-fast `InvalidConfiguration` path; that crash is outside this
interpreter, which covers non-negative counts, so nothing beyond the
zero-count case is asserted here.) -/
theorem parseArgs_no_validation :
    parseArgs ["-p", "0"] = Except.ok (10, 1, 0, -1)
    ∧ parseArgs ["-c", "0"] = Except.ok (10, 0, 1, -1)
    ∧ (∀ cfg : RunConfig, cfg.numProducers = 0 → (initState cfg).producers = [])
    ∧ (∀ cfg : RunConfig, cfg.numConsumers = 0 → (initState cfg).consumers = [])
    ∧ (run ⟨10, 0, 0, -1⟩ [Agent.issuer, Agent.issuer]).issued = [1] := by
  refine ⟨rfl, rfl, ?_, ?_, by decide⟩
  · intro cfg h0
    simp [initState, h0]
  · intro cfg h0
    simp [initState, h0]

/-- Witness for the amended C8 at the concrete zero-count configurations. -/
theorem parseArgs_no_validation_witness :
    (initState ⟨10, 0, 1, -1⟩).producers = []
    ∧ (initState ⟨10, 1, 0, -1⟩).consumers = [] :=
  ⟨parseArgs_no_validation.2.2.1 ⟨10, 0, 1, -1⟩ rfl,
   parseArgs_no_validation.2.2.2.1 ⟨10, 1, 0, -1⟩ rfl⟩
